import Mathlib

/-!
Verification development for an A3C-style reinforcement-learning trainer
(`rl/algorithms.py` and `perform.py`).  The graph-building code of
`BaseA3CAlgorithm` is embedded shallowly: tensors fed per batch element
become lists of rationals, TensorFlow reductions become list sums, the
int64 global-step variable becomes a natural number, and Python integer
locals of the training loop become integers.  The module
`rl.trajectory` (`gae`, `TrajectoryProducer`) is not part of the
repository sources; where a claim needs it, it is modelled from the
specification and marked as such.
-/

namespace Spec2Proof

/-! ### Policy parameters and the synchronization op

`BaseA3CAlgorithm.__init__` (algorithms.py, lines 25-31) builds
`sync_ops = tf.group(*[v1.assign(v2) for v1, v2 in
zip(local_policy.var_list(), global_policy.var_list())])` when a distinct
local policy is configured.  Parameters are embedded as lists of rational
values; `v1.assign(v2)` writes the current global value into the local
slot of the same zip position, and no global variable is written. -/

/-- The local/global variable stores (`local_policy.var_list()` and
`global_policy.var_list()`), each a position-indexed list of parameter
values. -/
structure ParamState where
  localVars : List ℚ
  globalVars : List ℚ
  deriving Repr, DecidableEq

/-- Embeds running `sync_ops` (algorithms.py lines 26-29): for every zipped
pair `(v1, v2)` of a local and a global variable, `v1.assign(v2)` stores the
global value in the local slot; local slots beyond the zip length keep their
values, and no global variable is assigned. -/
def runSyncOps (s : ParamState) : ParamState :=
  { localVars :=
      ((s.localVars.zip s.globalVars).map Prod.snd)
        ++ s.localVars.drop (s.localVars.zip s.globalVars).length
    globalVars := s.globalVars }

/-- Mapping the second projection over a zip of lists of equal length
recovers the second list. -/
theorem map_snd_zip_eq {α β : Type} :
    ∀ (l1 : List α) (l2 : List β), l1.length = l2.length →
      (l1.zip l2).map Prod.snd = l2 := by
  intro l1
  induction l1 with
  | nil =>
      intro l2 h
      cases l2 with
      | nil => rfl
      | cons b t => simp at h
  | cons a t ih =>
      intro l2 h
      cases l2 with
      | nil => simp at h
      | cons b t2 =>
          have h' : t.length = t2.length := by simpa using h
          simp [ih t2 h']

/-- Claim C1: when a distinct local policy is configured, running the
synchronization operation built in `BaseA3CAlgorithm.__init__` assigns, for
every position `i`, the `i`-th global parameter's value to the `i`-th local
parameter, so immediately afterwards the local variable list equals the
global variable list (in particular every position agrees), and the global
variables are unchanged. -/
theorem sync_copies_global_and_preserves_global (s : ParamState)
    (h : s.localVars.length = s.globalVars.length) :
    (runSyncOps s).localVars = s.globalVars ∧
    (∀ i, (runSyncOps s).localVars.get? i = s.globalVars.get? i) ∧
    (runSyncOps s).globalVars = s.globalVars := by
  have hmap := map_snd_zip_eq s.localVars s.globalVars h
  have hzlen : (s.localVars.zip s.globalVars).length = s.localVars.length := by
    simp [List.length_zip, h]
  have hloc : (runSyncOps s).localVars = s.globalVars := by
    simp [runSyncOps, hmap, hzlen]
  exact ⟨hloc, fun i => by rw [hloc], rfl⟩

/-- Witness for C1 at a concrete state: distinct-valued local parameters
become the global values and the globals stay put. -/
theorem sync_copies_global_and_preserves_global_witness :
    (runSyncOps ⟨[1, 2, 3], [4, 5, 6]⟩).localVars = [4, 5, 6] ∧
    (runSyncOps ⟨[1, 2, 3], [4, 5, 6]⟩).globalVars = [4, 5, 6] := by
  have h := sync_copies_global_and_preserves_global ⟨[1, 2, 3], [4, 5, 6]⟩
    (by decide)
  exact ⟨h.1, h.2.2⟩

/-! ### The loss graph

`BaseA3CAlgorithm.__init__` (algorithms.py, lines 41-55) builds, over the
placeholders `actions`, `advantages` and `value_targets` and the local
policy's distribution `pd`:

    policy_loss  = reduce_sum(pd.neglogp(actions) * advantages)
    policy_loss -= entropy_coef * reduce_sum(pd.entropy())
    v_loss       = reduce_sum(square(squeeze(value_preds) - value_targets))
    loss         = policy_loss + value_loss_coef * v_loss

Batch-indexed tensors become lists of rationals. -/

/-- The `tf.reduce_sum` reduction of a batch-indexed vector. -/
def reduceSum (xs : List ℚ) : ℚ := xs.sum

/-- Elementwise tensor product (TensorFlow `*` on two vectors of the same
batch shape). -/
def tensorMul (xs ys : List ℚ) : List ℚ := List.zipWith (fun a b => a * b) xs ys

/-- The local policy's action distribution and value head, abstracted as
per-batch-element functions of the fed observation: `neglogp o a` is the
entry of `pd.neglogp(actions)` for batch element `(o, a)`, `entropy o` the
entry of `pd.entropy()`, and `value o` the entry of
`squeeze(value_preds)`. -/
structure Policy (Obs Act : Type) where
  neglogp : Obs → Act → ℚ
  entropy : Obs → ℚ
  value : Obs → ℚ

/-- The three loss tensors built by `__init__`. -/
structure LossGraph where
  policy_loss : ℚ
  v_loss : ℚ
  loss : ℚ
  deriving Repr, DecidableEq

/-- Default of the `entropy_coef` keyword argument (algorithms.py line 22). -/
def entropy_coef_default : ℚ := 1/100

/-- Default of the `value_loss_coef` keyword argument (line 23). -/
def value_loss_coef_default : ℚ := 1/4

/-- Embeds the loss construction of `BaseA3CAlgorithm.__init__`
(algorithms.py, lines 46-55), evaluated on a feed of observations (the local
policy's `inputs`), taken actions, advantages and value targets. -/
def buildLoss {Obs Act : Type} (p : Policy Obs Act)
    (entropy_coef value_loss_coef : ℚ)
    (inputs : List Obs) (actions : List Act)
    (advantages value_targets : List ℚ) : LossGraph :=
  let neglogps := List.zipWith p.neglogp inputs actions
  let pl := reduceSum (tensorMul neglogps advantages)
      - entropy_coef * reduceSum (inputs.map p.entropy)
  let vl := reduceSum
      (List.zipWith (fun v t => (v - t) ^ 2) (inputs.map p.value) value_targets)
  { policy_loss := pl
    v_loss := vl
    loss := pl + value_loss_coef * vl }

/-- The specification's policy-loss formula, written from its words: the sum
over the batch of the negative log-probability of the taken action times the
advantage, minus `entropy_coef` times the sum of the action-distribution
entropies. -/
def spec_policy_loss {Obs Act : Type} (p : Policy Obs Act) (entropy_coef : ℚ)
    (inputs : List Obs) (actions : List Act) (advantages : List ℚ) : ℚ :=
  (List.zipWith3 (fun o a adv => p.neglogp o a * adv) inputs actions advantages).sum
    - entropy_coef * (inputs.map p.entropy).sum

/-- The specification's value-loss formula: the sum of squared differences
between predicted values and value targets. -/
def spec_value_loss {Obs Act : Type} (p : Policy Obs Act)
    (inputs : List Obs) (value_targets : List ℚ) : ℚ :=
  (List.zipWith (fun v t => (v - t) ^ 2) (inputs.map p.value) value_targets).sum

/-- Multiplying an elementwise-applied binary function with a third list is
a three-way zip. -/
theorem tensorMul_zipWith_eq_zipWith3 {Obs Act : Type} (f : Obs → Act → ℚ) :
    ∀ (os : List Obs) (acts : List Act) (advs : List ℚ),
      tensorMul (List.zipWith f os acts) advs
        = List.zipWith3 (fun o a adv => f o a * adv) os acts advs := by
  intro os
  induction os with
  | nil => intro acts advs; cases acts <;> cases advs <;> rfl
  | cons o ot ih =>
      intro acts advs
      cases acts with
      | nil => cases advs <;> rfl
      | cons a at2 =>
          cases advs with
          | nil => rfl
          | cons adv advt =>
              show (f o a * adv) :: tensorMul (List.zipWith f ot at2) advt = _
              rw [ih at2 advt]
              rfl

/-- Claim C2: the loss built by `BaseA3CAlgorithm.__init__` with the default
coefficients satisfies the specified formulas: the policy loss is the batch
sum of negative-log-probability times advantage minus `0.01` times the
entropy sum, the value loss is the sum of squared prediction/target
differences, and the total loss is `policy_loss + 0.25 * value_loss`. -/
theorem loss_formulas {Obs Act : Type} (p : Policy Obs Act)
    (inputs : List Obs) (actions : List Act)
    (advantages value_targets : List ℚ) :
    (buildLoss p entropy_coef_default value_loss_coef_default
        inputs actions advantages value_targets).policy_loss
      = spec_policy_loss p (1/100) inputs actions advantages ∧
    (buildLoss p entropy_coef_default value_loss_coef_default
        inputs actions advantages value_targets).v_loss
      = spec_value_loss p inputs value_targets ∧
    (buildLoss p entropy_coef_default value_loss_coef_default
        inputs actions advantages value_targets).loss
      = spec_policy_loss p (1/100) inputs actions advantages
        + (1/4) * spec_value_loss p inputs value_targets := by
  refine ⟨?_, rfl, ?_⟩ <;>
    simp [buildLoss, spec_policy_loss, spec_value_loss, reduceSum,
      entropy_coef_default, value_loss_coef_default,
      tensorMul_zipWith_eq_zipWith3 p.neglogp inputs actions advantages]

/-! ### Trajectories, advantage estimation and the feed dict

The trajectory data model follows the specification's §3: per-transition
observations, actions, rewards and done flags, a bootstrap value, and the
true consumed length `num_timesteps`.  `rl/trajectory.py` itself is not
among the repository sources, so `gae` is modelled from the
specification's §4.2. -/

/-- A trajectory segment handed from the producer to the training loop. -/
structure Trajectory (Obs Act : Type) where
  observations : List Obs
  actions : List Act
  rewards : List ℚ
  resets : List Bool
  bootstrap_value : ℚ
  num_timesteps : ℕ
  deriving Repr, DecidableEq

/-- Modelled from the spec: the backward advantage recursion of §4.2 over
per-timestep triples `(V(s_t), r_t, done_t)`:
`δ_t = r_t + γ·V(s_{t+1})·(1 - done_t) - V(s_t)` with the bootstrap value as
the final `V(s_{t+1})`, and `A_t = δ_t + γλ·A_{t+1}·(1 - done_t)`. -/
def gaeAdvantages (gamma lam bootstrap : ℚ) : List (ℚ × ℚ × Bool) → List ℚ
  | [] => []
  | (v, r, d) :: rest =>
      let tailAdv := gaeAdvantages gamma lam bootstrap rest
      let nextV : ℚ :=
        match rest with
        | [] => bootstrap
        | (v2, _, _) :: _ => v2
      let nextA : ℚ :=
        match tailAdv with
        | [] => 0
        | a :: _ => a
      let notDone : ℚ := if d then 0 else 1
      (r + gamma * nextV * notDone - v + gamma * lam * nextA * notDone)
        :: tailAdv

/-- Modelled from the spec: `gae(policy, trajectory, gamma, lambda_, sess)`
from the missing module `rl.trajectory`.  It evaluates the policy's value
head on the trajectory's valid observations and returns per-timestep
advantages (§4.2's backward pass) and value targets `A_t + V(s_t)`. -/
def gae {Obs Act : Type} (value : Obs → ℚ) (traj : Trajectory Obs Act)
    (gamma lam : ℚ) : List ℚ × List ℚ :=
  let values := (traj.observations.take traj.num_timesteps).map value
  let triples := values.zip
    ((traj.rewards.take traj.num_timesteps).zip
      (traj.resets.take traj.num_timesteps))
  let adv := gaeAdvantages gamma lam traj.bootstrap_value triples
  (adv, List.zipWith (fun a v => a + v) adv values)

/-- The feed bound to the graph's placeholders for one update. -/
structure FeedDict (Obs Act : Type) where
  inputs : List Obs
  actions : List Act
  advantages : List ℚ
  value_targets : List ℚ
  deriving Repr, DecidableEq

/-- Embeds `BaseA3CAlgorithm._get_feed_dict` (algorithms.py, lines 94-107) on
the trajectory pulled from the producer: observations and actions are sliced
with `[:trajectory.num_timesteps]`, and advantages and value targets come
from `gae`.  (The recurrent-state entry, fed only for stateful policies, is
omitted: policies are modelled stateless, matching `get_state() is None`.) -/
def get_feed_dict {Obs Act : Type} (value : Obs → ℚ) (gamma lam : ℚ)
    (traj : Trajectory Obs Act) : FeedDict Obs Act :=
  let p := gae value traj gamma lam
  { inputs := traj.observations.take traj.num_timesteps
    actions := traj.actions.take traj.num_timesteps
    advantages := p.1
    value_targets := p.2 }

/-- Claim C7: only the first `num_timesteps` entries of a trajectory's
observations and actions are fed into the loss computation: the fed slots
are exactly the `[:num_timesteps]` slices, and two trajectories that agree
on `num_timesteps`, on those slices and on the reward/done/bootstrap data
produce identical feeds, whatever sits in the slots beyond
`num_timesteps`. -/
theorem feed_dict_uses_only_valid_slots {Obs Act : Type} (value : Obs → ℚ)
    (gamma lam : ℚ) (t1 t2 : Trajectory Obs Act)
    (hn : t2.num_timesteps = t1.num_timesteps)
    (hobs : t2.observations.take t1.num_timesteps
      = t1.observations.take t1.num_timesteps)
    (hact : t2.actions.take t1.num_timesteps
      = t1.actions.take t1.num_timesteps)
    (hrew : t2.rewards = t1.rewards) (hres : t2.resets = t1.resets)
    (hboot : t2.bootstrap_value = t1.bootstrap_value) :
    (get_feed_dict value gamma lam t1).inputs
      = t1.observations.take t1.num_timesteps ∧
    (get_feed_dict value gamma lam t1).actions
      = t1.actions.take t1.num_timesteps ∧
    get_feed_dict value gamma lam t2 = get_feed_dict value gamma lam t1 := by
  refine ⟨rfl, rfl, ?_⟩
  simp [get_feed_dict, gae, hn, hobs, hact, hrew, hres, hboot]

/-- Witness for C7: two trajectories differing only in the slot past
`num_timesteps = 2` get the same feed. -/
theorem feed_dict_uses_only_valid_slots_witness :
    (get_feed_dict (fun o : ℤ => (o : ℚ)) (99/100) (95/100)
        ⟨[1, 2, 42], [5, 6, 13], [1, 1], [false, false], 7, 2⟩ :
      FeedDict ℤ ℤ)
      = get_feed_dict (fun o : ℤ => (o : ℚ)) (99/100) (95/100)
        ⟨[1, 2, 99], [5, 6, 77], [1, 1], [false, false], 7, 2⟩ :=
  (feed_dict_uses_only_valid_slots (fun o : ℤ => (o : ℚ)) (99/100) (95/100)
    ⟨[1, 2, 99], [5, 6, 77], [1, 1], [false, false], 7, 2⟩
    ⟨[1, 2, 42], [5, 6, 13], [1, 1], [false, false], 7, 2⟩
    (by decide) (by decide) (by decide) rfl rfl rfl).2.2

/-! ### The train op and step accounting

`BaseA3CAlgorithm._get_train_op` (algorithms.py, lines 82-88) groups the
optimizer's `apply_gradients` with
`global_step.assign_add(batch_size)`, where
`batch_size = shape(local_policy.inputs)[0]` is the batch size of the fed
inputs. -/

/-- The step advance of one `train_op` run: the int64 `global_step` grows by
the length of the feed bound to `local_policy.inputs`. -/
def run_train_op_step {Obs Act : Type} (step : ℕ) (fd : FeedDict Obs Act) : ℕ :=
  step + fd.inputs.length

/-- One training iteration's effect on the step counter: build the feed for
the next trajectory and run `train_op`. -/
def consume_step {Obs Act : Type} (value : Obs → ℚ) (gamma lam : ℚ)
    (step : ℕ) (traj : Trajectory Obs Act) : ℕ :=
  run_train_op_step step (get_feed_dict value gamma lam traj)

/-- Claim C3: each run of the training op advances the global step counter by
the batch size of the fed observations, which equals the trajectory's
`num_timesteps`; hence `N` iterations consuming `num_timesteps_i` each
advance the counter by `Σ num_timesteps_i` (not by `N`). -/
theorem step_counter_advances_by_timesteps {Obs Act : Type} (value : Obs → ℚ)
    (gamma lam : ℚ) (step0 : ℕ) (trajs : List (Trajectory Obs Act))
    (h : ∀ t ∈ trajs, t.num_timesteps ≤ t.observations.length) :
    trajs.foldl (consume_step value gamma lam) step0
      = step0 + (trajs.map Trajectory.num_timesteps).sum := by
  induction trajs generalizing step0 with
  | nil => simp
  | cons t ts ih =>
      have ht : t.num_timesteps ≤ t.observations.length :=
        h t (List.mem_cons_self t ts)
      have hstep : consume_step value gamma lam step0 t
          = step0 + t.num_timesteps := by
        simp [consume_step, run_train_op_step, get_feed_dict,
          List.length_take, Nat.min_eq_left ht]
      have ih' := ih (consume_step value gamma lam step0 t)
        (fun u hu => h u (List.mem_cons_of_mem t hu))
      simp only [List.foldl_cons, List.map_cons, List.sum_cons] at *
      rw [ih', hstep]
      ring

/-- Witness for C3: two iterations consuming 2 and 3 timesteps advance the
counter from 10 to 15. -/
theorem step_counter_advances_by_timesteps_witness :
    ([(⟨[1, 2], [0, 0], [1, 1], [false, false], 0, 2⟩ : Trajectory ℤ ℤ),
      ⟨[3, 4, 5], [0, 0, 0], [1, 1, 1], [false, false, false], 0, 3⟩].foldl
        (consume_step (fun o : ℤ => (o : ℚ)) (99/100) (95/100)) 10) = 15 :=
  step_counter_advances_by_timesteps (fun o : ℤ => (o : ℚ)) (99/100) (95/100)
    10
    [⟨[1, 2], [0, 0], [1, 1], [false, false], 0, 2⟩,
     ⟨[3, 4, 5], [0, 0, 0], [1, 1, 1], [false, false, false], 0, 3⟩]
    (by decide)

/-! ### Managed session and checkpoint hooks

`BaseA3CAlgorithm._managed_session` (algorithms.py, lines 109-129) appends a
`tf.train.CheckpointSaverHook` when `checkpoint_period` is given, warns when
neither a period nor a supplied saver hook exists, and then creates the
`SingularMonitoredSession` in every case. -/

/-- A session hook handed to the managed session; the embedding
distinguishes `tf.train.CheckpointSaverHook` (with its `save_steps`) from
any other hook. -/
inductive SessionHook
  | checkpointSaver (save_steps : ℕ)
  | other (tag : ℕ)
  deriving Repr, DecidableEq

/-- Tests `isinstance(h, tf.train.CheckpointSaverHook)`. -/
def SessionHook.isCheckpointSaver : SessionHook → Bool
  | .checkpointSaver _ => true
  | .other _ => false

/-- The observable outcome of entering `_managed_session`: the final hook
list, whether the warning was logged, and whether the session was created
(training proceeds). -/
structure ManagedSessionOutcome where
  hooks : List SessionHook
  warned : Bool
  sessionCreated : Bool
  deriving Repr, DecidableEq

/-- Embeds `_managed_session` (lines 109-129): `hooks = hooks or []`; if a
`checkpoint_period` is given, a `CheckpointSaverHook` with
`save_steps = checkpoint_period` is appended; otherwise, if no supplied hook
is a checkpoint saver, a warning is logged; the session is then created in
every case. -/
def managed_session (checkpoint_period : Option ℕ)
    (hooks0 : Option (List SessionHook)) : ManagedSessionOutcome :=
  let hooks := hooks0.getD []
  match checkpoint_period with
  | some p =>
      { hooks := hooks ++ [SessionHook.checkpointSaver p]
        warned := false
        sessionCreated := true }
  | none =>
      if hooks.any SessionHook.isCheckpointSaver then
        { hooks := hooks, warned := false, sessionCreated := true }
      else
        { hooks := hooks, warned := true, sessionCreated := true }

/-- Claim C6: with `checkpoint_period = None` and no checkpoint-saver hook
among the supplied hooks, `_managed_session` logs a warning and still
creates the session (non-fatal); with a `checkpoint_period` provided, a
checkpoint-saver hook with that save period is installed (and the session
is created without warning). -/
theorem managed_session_checkpoint_handling
    (hooks0 : Option (List SessionHook))
    (hnosaver : ∀ h ∈ hooks0.getD [], h.isCheckpointSaver = false) :
    ((managed_session none hooks0).warned = true ∧
     (managed_session none hooks0).sessionCreated = true) ∧
    ∀ p : ℕ,
      (managed_session (some p) hooks0).hooks
        = hooks0.getD [] ++ [SessionHook.checkpointSaver p] ∧
      (managed_session (some p) hooks0).sessionCreated = true := by
  have hany : (hooks0.getD []).any SessionHook.isCheckpointSaver = false := by
    rw [List.any_eq_false]
    intro h hmem
    simp [hnosaver h hmem]
  constructor
  · constructor <;> simp [managed_session, hany]
  · intro p
    constructor <;> simp [managed_session]

/-- Witness for C6 with one non-saver hook supplied: the warning fires and
the session is created anyway. -/
theorem managed_session_checkpoint_handling_witness :
    (managed_session none (some [SessionHook.other 0])).warned = true ∧
    (managed_session none (some [SessionHook.other 0])).sessionCreated
      = true :=
  (managed_session_checkpoint_handling (some [SessionHook.other 0])
    (by decide)).1

/-! ### The shared default trajectory queue

The `__init__` signature (algorithms.py, line 21) declares
`queue=queue.Queue(maxsize=5)`.  Python evaluates a default-argument
expression once, when the `def` statement executes at class-definition
time, and stores the resulting object with the function; later calls that
omit the argument all receive that stored object.  Queue objects live on an
explicit heap, identified by allocation index. -/

/-- A `queue.Queue` object; only its `maxsize` bound matters here. -/
structure PyQueue where
  maxsize : ℕ
  deriving Repr, DecidableEq

/-- The heap of queue objects; an object's identity is its index. -/
structure QueueHeap where
  queues : List PyQueue
  deriving Repr, DecidableEq

/-- Allocate a new queue object on the heap, returning its identity. -/
def allocQueue (h : QueueHeap) (q : PyQueue) : QueueHeap × ℕ :=
  (⟨h.queues ++ [q]⟩, h.queues.length)

/-- Embeds the one-time evaluation of the default expression
`queue.Queue(maxsize=5)` when the `def __init__` statement executes at
class-definition time: a single queue of capacity 5 is allocated and its
identity stored with the function object. -/
def evalInitDefaults (h : QueueHeap) : QueueHeap × ℕ :=
  allocQueue h ⟨5⟩

/-- Embeds binding the `queue` parameter at an `__init__` call: an
explicitly passed queue identity is used, else the identity stored at
definition time. -/
def bindQueueArg (defaultId : ℕ) (explicit : Option ℕ) : ℕ :=
  explicit.getD defaultId

/-- Embeds constructing `k` instances in one process, each omitting the
`queue` argument: each instance's producer records the queue identity bound
by `bindQueueArg`; the `__init__` body allocates no queue, so the heap is
unchanged. -/
def constructWithoutQueueArg (defaultId : ℕ) (h : QueueHeap) (k : ℕ) :
    QueueHeap × List ℕ :=
  (h, List.replicate k (bindQueueArg defaultId none))

/-- Appending one element and reading at the old length yields it. -/
theorem get?_append_singleton_length {α : Type} :
    ∀ (l : List α) (a : α), (l ++ [a]).get? l.length = some a := by
  intro l a
  induction l with
  | nil => rfl
  | cons x xs ih => exact ih

/-- Claim C9: the default `queue` is a single bounded queue of capacity 5
allocated once at class-definition time, so any number of instances
constructed without an explicit queue argument in the same process all
record the very same queue identity (pairwise equal), the heap gains no
fresh queue at construction time, and the shared queue's bound is 5. -/
theorem default_queue_shared_across_instances (h0 : QueueHeap) (k : ℕ) :
    (constructWithoutQueueArg (evalInitDefaults h0).2 (evalInitDefaults h0).1
        k).2
      = List.replicate k (evalInitDefaults h0).2 ∧
    (∀ i1 ∈ (constructWithoutQueueArg (evalInitDefaults h0).2
        (evalInitDefaults h0).1 k).2,
      ∀ i2 ∈ (constructWithoutQueueArg (evalInitDefaults h0).2
        (evalInitDefaults h0).1 k).2, i1 = i2) ∧
    (constructWithoutQueueArg (evalInitDefaults h0).2 (evalInitDefaults h0).1
        k).1
      = (evalInitDefaults h0).1 ∧
    (evalInitDefaults h0).1.queues.get? (evalInitDefaults h0).2
      = some ⟨5⟩ := by
  refine ⟨rfl, ?_, rfl, ?_⟩
  · intro i1 h1 i2 h2
    have e1 := List.eq_of_mem_replicate h1
    have e2 := List.eq_of_mem_replicate h2
    rw [e1, e2]
  · exact get?_append_singleton_length h0.queues ⟨5⟩

/-! ### The training loop

`BaseA3CAlgorithm.train` (algorithms.py, lines 131-166): after reading the
restored step and setting `last_summary_step = step - summary_period`, the
loop runs while `not sess.should_stop() and step < num_steps`; each
iteration runs `sync_ops` when one was built, pulls a trajectory and builds
the feed (computing advantages), then either runs
`[policy_loss, v_loss, summaries, train_op]` and records the summary (when
`step - last_summary_step >= summary_period`) or runs `train_op` alone, and
finally re-reads `global_step`. -/

/-- One observable event of a training iteration, in program order. -/
inductive Event
  | sync
  | pullTrajectory
  | applyUpdate
  deriving Repr, DecidableEq

/-- The configuration fixed for one `train` call: the local policy's heads,
whether a distinct local policy was configured (`sync_ops is not None`), the
producer's FIFO stream of trajectories, the optimizer's effect on the global
variables, the GAE and loss coefficients, `summary_period`, `num_steps`,
and the external stop signal `sess.should_stop()` as seen at the top of
each iteration (indexed by the number of trajectories consumed so far). -/
structure TrainConfig (Obs Act : Type) where
  policy : Policy Obs Act
  hasSync : Bool
  producer : ℕ → Trajectory Obs Act
  optimizerApply : List ℚ → FeedDict Obs Act → List ℚ
  gamma : ℚ
  lam : ℚ
  entropy_coef : ℚ
  value_loss_coef : ℚ
  summary_period : ℤ
  num_steps : ℤ
  stopRequested : ℕ → Bool

/-- The mutable state of `train`: the parameter stores, the int64
`global_step` variable, the Python locals `step` and `last_summary_step`,
the number of trajectories consumed, the steps passed to
`summary_writer.add_summary`, the logged `(policy_loss, v_loss)` pairs, and
the number of `train_op` runs. -/
structure TrainState where
  params : ParamState
  globalStep : ℕ
  step : ℤ
  lastSummaryStep : ℤ
  consumed : ℕ
  summarySteps : List ℤ
  lossLog : List (ℚ × ℚ)
  numUpdates : ℕ
  deriving Repr, DecidableEq

/-- The feed built in the current iteration: `_get_feed_dict` applied to the
next trajectory from the producer. -/
def iterFeed {Obs Act : Type} (cfg : TrainConfig Obs Act) (s : TrainState) :
    FeedDict Obs Act :=
  get_feed_dict cfg.policy.value cfg.gamma cfg.lam (cfg.producer s.consumed)

/-- One run of `train_op` (lines 82-88): `apply_gradients` rewrites the
global variables and `global_step.assign_add(batch_size)` adds the fed batch
size. -/
def applyTrainOp {Obs Act : Type} (cfg : TrainConfig Obs Act)
    (fd : FeedDict Obs Act) (s : TrainState) : TrainState :=
  { s with
    params :=
      { localVars := s.params.localVars
        globalVars := cfg.optimizerApply s.params.globalVars fd }
    globalStep := s.globalStep + fd.inputs.length
    numUpdates := s.numUpdates + 1 }

/-- Running `[self.policy_loss, self.v_loss]` on a feed. -/
def runLosses {Obs Act : Type} (cfg : TrainConfig Obs Act)
    (fd : FeedDict Obs Act) : ℚ × ℚ :=
  let g := buildLoss cfg.policy cfg.entropy_coef cfg.value_loss_coef
    fd.inputs fd.actions fd.advantages fd.value_targets
  (g.policy_loss, g.v_loss)

/-- Embeds one iteration of the `while` body (lines 153-166), returning the
new state and the iteration's event trace: run `sync_ops` when present, pull
a trajectory and build the feed, take the summary branch when
`step - last_summary_step >= summary_period` (computing and logging the
losses, emitting a summary at the current `step`, applying the update and
setting `last_summary_step = step`) and the plain branch otherwise (update
only), then re-read `global_step` into `step`. -/
def train_iter {Obs Act : Type} (cfg : TrainConfig Obs Act) (s : TrainState) :
    TrainState × List Event :=
  let s1 := if cfg.hasSync then { s with params := runSyncOps s.params } else s
  let fd := iterFeed cfg s1
  let s2 := { s1 with consumed := s1.consumed + 1 }
  let s3 :=
    if s2.step - s2.lastSummaryStep ≥ cfg.summary_period then
      let pv := runLosses cfg fd
      let su := applyTrainOp cfg fd s2
      { su with
        lossLog := su.lossLog ++ [pv]
        summarySteps := su.summarySteps ++ [s2.step]
        lastSummaryStep := s2.step }
    else
      applyTrainOp cfg fd s2
  ({ s3 with step := (s3.globalStep : ℤ) },
    (if cfg.hasSync then [Event.sync] else [])
      ++ [Event.pullTrajectory, Event.applyUpdate])

/-- The loop guard `not sess.should_stop() and step < num_steps`. -/
def loopCond {Obs Act : Type} (cfg : TrainConfig Obs Act) (s : TrainState) :
    Bool :=
  !cfg.stopRequested s.consumed && decide (s.step < cfg.num_steps)

/-- Embeds the `while` loop (lines 152-166), with fuel bounding the number
of iterations observed; the guard is evaluated once, at the top of each
iteration. -/
def train_loop {Obs Act : Type} (cfg : TrainConfig Obs Act) :
    ℕ → TrainState → TrainState × List Event
  | 0, s => (s, [])
  | fuel + 1, s =>
      if loopCond cfg s then
        let r1 := train_iter cfg s
        let r2 := train_loop cfg fuel r1.1
        (r2.1, r1.2 ++ r2.2)
      else (s, [])

/-- Embeds the loop initialization (lines 147-149): `step` is the restored
`global_step` and `last_summary_step = step - summary_period`. -/
def init_train_state (params : ParamState) (globalStep0 : ℕ)
    (summary_period : ℤ) : TrainState :=
  { params := params
    globalStep := globalStep0
    step := (globalStep0 : ℤ)
    lastSummaryStep := (globalStep0 : ℤ) - summary_period
    consumed := 0
    summarySteps := []
    lossLog := []
    numUpdates := 0 }

/-- The states reached after `k` iterations of the loop body. -/
def iterateTrain {Obs Act : Type} (cfg : TrainConfig Obs Act) :
    ℕ → TrainState → TrainState
  | 0, s => s
  | k + 1, s => iterateTrain cfg k (train_iter cfg s).1

/-- Claim C4: in every iteration of `train`, if the elapsed steps since the
last summary are at least `summary_period` then the losses are computed and
logged, a summary record is emitted at the current step, the gradient update
is applied, and `last_summary_step` is reset to the current step; otherwise
only the gradient update is applied and no loss metrics or summaries are
produced. -/
theorem summary_branch_behaviour {Obs Act : Type} (cfg : TrainConfig Obs Act)
    (s : TrainState) :
    if s.step - s.lastSummaryStep ≥ cfg.summary_period then
      (train_iter cfg s).1.lossLog
          = s.lossLog ++ [runLosses cfg (iterFeed cfg s)] ∧
      (train_iter cfg s).1.summarySteps = s.summarySteps ++ [s.step] ∧
      (train_iter cfg s).1.lastSummaryStep = s.step ∧
      (train_iter cfg s).1.numUpdates = s.numUpdates + 1
    else
      (train_iter cfg s).1.lossLog = s.lossLog ∧
      (train_iter cfg s).1.summarySteps = s.summarySteps ∧
      (train_iter cfg s).1.lastSummaryStep = s.lastSummaryStep ∧
      (train_iter cfg s).1.numUpdates = s.numUpdates + 1 := by
  by_cases hdue : s.step - s.lastSummaryStep ≥ cfg.summary_period <;>
    by_cases hsync : cfg.hasSync <;>
      simp [train_iter, iterFeed, applyTrainOp, runSyncOps, hdue, hsync]

/-- Claim C5: the training loop iterates exactly while the guard (no stop
signal and `step < num_steps`) holds, checking it once at the top of each
iteration: for some iteration count `n` within the fuel, the final state is
the `n`-th iterate, the trace is `n` complete blocks each reading
synchronization (exactly when a distinct local policy exists), then the
trajectory pull with its advantage computation, then the gradient update —
so a started iteration's update always completes — the guard held before
each of the `n` iterations, and unless the fuel ran out it fails after the
last one. -/
theorem train_loop_structure {Obs Act : Type} (cfg : TrainConfig Obs Act)
    (fuel : ℕ) (s : TrainState) :
    ∃ n : ℕ, n ≤ fuel ∧
      (train_loop cfg fuel s).1 = iterateTrain cfg n s ∧
      (train_loop cfg fuel s).2
        = List.flatten (List.replicate n
            ((if cfg.hasSync then [Event.sync] else [])
              ++ [Event.pullTrajectory, Event.applyUpdate])) ∧
      (∀ k, k < n → loopCond cfg (iterateTrain cfg k s) = true) ∧
      (n < fuel → loopCond cfg (iterateTrain cfg n s) = false) := by
  induction fuel generalizing s with
  | zero =>
      refine ⟨0, le_rfl, rfl, rfl, ?_, ?_⟩
      · intro k hk; omega
      · intro h; omega
  | succ fuel ih =>
      by_cases hc : loopCond cfg s
      · obtain ⟨n, hn, hstate, htrace, hheld, hfail⟩ := ih (train_iter cfg s).1
        refine ⟨n + 1, by omega, ?_, ?_, ?_, ?_⟩
        · simp only [train_loop, hc, if_true]
          exact hstate
        · simp only [train_loop, hc, if_true, List.replicate_succ,
            List.flatten_cons]
          rw [htrace]
          rfl
        · intro k hk
          match k with
          | 0 => exact hc
          | j + 1 =>
              have : j < n := by omega
              exact hheld j this
        · intro hlt
          exact hfail (by omega)
      · refine ⟨0, by omega, ?_, ?_, ?_, ?_⟩
        · simp [train_loop, hc, iterateTrain]
        · simp [train_loop, hc]
        · intro k hk; omega
        · intro _
          simpa using hc

/-- Claim C10: whenever `train` runs at least one loop iteration with
`summary_period ≥ 0`, the very first iteration takes the summary branch:
`last_summary_step` is initialized to the restored step minus
`summary_period`, so the elapsed-steps test passes immediately and the first
iteration logs the losses and emits a summary at the restored step. -/
theorem first_iteration_takes_summary_branch {Obs Act : Type}
    (cfg : TrainConfig Obs Act) (params : ParamState) (globalStep0 : ℕ)
    (hperiod : 0 ≤ cfg.summary_period)
    (hruns : loopCond cfg
      (init_train_state params globalStep0 cfg.summary_period) = true) :
    ((init_train_state params globalStep0 cfg.summary_period).step
        - (init_train_state params globalStep0
            cfg.summary_period).lastSummaryStep
      ≥ cfg.summary_period) ∧
    (train_iter cfg
        (init_train_state params globalStep0 cfg.summary_period)).1.summarySteps
      = [(globalStep0 : ℤ)] ∧
    (train_iter cfg
        (init_train_state params globalStep0 cfg.summary_period)).1.lossLog
      = [runLosses cfg
          (iterFeed cfg
            (init_train_state params globalStep0 cfg.summary_period))] := by
  have hdue : (init_train_state params globalStep0 cfg.summary_period).step
      - (init_train_state params globalStep0
          cfg.summary_period).lastSummaryStep
      ≥ cfg.summary_period := by
    simp [init_train_state]
  refine ⟨hdue, ?_, ?_⟩ <;>
    by_cases hsync : cfg.hasSync <;>
      simp [train_iter, iterFeed, applyTrainOp, runSyncOps, init_train_state,
        hsync]

/-- A concrete training configuration used to witness the loop claims. -/
def sampleConfig : TrainConfig ℤ ℤ :=
  { policy := ⟨fun o a => (o + a : ℚ), fun o => (o : ℚ), fun o => (o : ℚ)⟩
    hasSync := true
    producer := fun _ => ⟨[1, 2], [0, 1], [1, 1], [false, false], 0, 2⟩
    optimizerApply := fun g _ => g
    gamma := 99/100
    lam := 95/100
    entropy_coef := 1/100
    value_loss_coef := 1/4
    summary_period := 100
    num_steps := 1000
    stopRequested := fun _ => false }

/-- Witness for C10 at `sampleConfig` from a fresh step counter: the first
iteration emits a summary at step 0. -/
theorem first_iteration_takes_summary_branch_witness :
    (train_iter sampleConfig
        (init_train_state ⟨[0], [0]⟩ 0
          sampleConfig.summary_period)).1.summarySteps
      = [(0 : ℤ)] :=
  (first_iteration_takes_summary_branch sampleConfig ⟨[0], [0]⟩ 0
    (by decide) (by decide)).2.1

/-! ### The evaluation entry point

`perform.main` (perform.py, lines 62-81): after restoring the checkpoint it
rolls out `num_episodes` episodes; episode `i` accumulates `rewards[i] +=
rew` per environment step, and after the episode the running mean is updated
with `mean_reward += 1 / (i + 1) * (rewards[i] - mean_reward)`.  The session
contains no training op, so the restored parameters are never written. -/

/-- The accumulation of `rewards[i] += rew` over one episode's per-step
rewards, starting from the zero-initialized slot of `np.zeros`. -/
def episode_reward (stepRewards : List ℚ) : ℚ :=
  stepRewards.foldl (fun acc r => acc + r) 0

/-- The state across the episode loop of `perform.main`: the filled prefix
of the `rewards` array, the running `mean_reward`, and the restored policy
parameters. -/
structure EvalState where
  rewards : List ℚ
  mean_reward : ℚ
  params : List ℚ
  deriving Repr, DecidableEq

/-- Embeds one iteration of the episode loop (perform.py, lines 66-78):
episode `i` — where `i` is the number of episodes already recorded — fills
`rewards[i]` with its accumulated step rewards and then updates
`mean_reward += 1 / (i + 1) * (rewards[i] - mean_reward)`; no operation
writes the parameters. -/
def eval_episode (s : EvalState) (stepRewards : List ℚ) : EvalState :=
  let i := s.rewards.length
  let r := episode_reward stepRewards
  { rewards := s.rewards ++ [r]
    mean_reward := s.mean_reward + 1 / ((i : ℚ) + 1) * (r - s.mean_reward)
    params := s.params }

/-- Embeds the whole evaluation loop of `perform.main` over the episode
sequence, from zeroed `rewards`, `mean_reward = 0` and the restored
parameters. -/
def eval_run (params : List ℚ) (episodes : List (List ℚ)) : EvalState :=
  episodes.foldl eval_episode
    { rewards := [], mean_reward := 0, params := params }

/-- A left fold of addition from an accumulator is the accumulator plus the
sum. -/
theorem foldl_add_eq_sum :
    ∀ (xs : List ℚ) (a : ℚ), xs.foldl (fun acc r => acc + r) a = a + xs.sum := by
  intro xs
  induction xs with
  | nil => intro a; simp
  | cons x t ih =>
      intro a
      simp only [List.foldl_cons, List.sum_cons, ih (a + x)]
      ring

/-- The per-episode accumulation of step rewards is their sum. -/
theorem episode_reward_eq_sum (stepRewards : List ℚ) :
    episode_reward stepRewards = stepRewards.sum := by
  simp [episode_reward, foldl_add_eq_sum]

/-- Invariant of the episode loop: the rewards array extends by the episode
sums, the parameters are untouched, and the running mean times the number of
recorded episodes grows by exactly the new episode sums. -/
theorem eval_fold_invariant :
    ∀ (eps : List (List ℚ)) (s : EvalState),
      (eps.foldl eval_episode s).rewards
          = s.rewards ++ eps.map List.sum ∧
      (eps.foldl eval_episode s).params = s.params ∧
      (((eps.foldl eval_episode s).rewards.length : ℚ)
            * (eps.foldl eval_episode s).mean_reward
          = (s.rewards.length : ℚ) * s.mean_reward
            + (eps.map List.sum).sum) := by
  intro eps
  induction eps with
  | nil => intro s; simp
  | cons ep rest ih =>
      intro s
      obtain ⟨hr, hp, hm⟩ := ih (eval_episode s ep)
      have hlen : ((eval_episode s ep).rewards.length : ℚ)
          = (s.rewards.length : ℚ) + 1 := by
        simp [eval_episode]
      have hmean : ((eval_episode s ep).rewards.length : ℚ)
          * (eval_episode s ep).mean_reward
          = (s.rewards.length : ℚ) * s.mean_reward + ep.sum := by
        rw [hlen]
        have hne : (s.rewards.length : ℚ) + 1 ≠ 0 := by
          positivity
        simp only [eval_episode, episode_reward_eq_sum]
        field_simp
        ring
      refine ⟨?_, ?_, ?_⟩
      · simp only [List.foldl_cons, List.map_cons]
        rw [hr]
        simp [eval_episode, episode_reward_eq_sum]
      · simpa [List.foldl_cons] using hp.trans (by simp [eval_episode])
      · simp only [List.foldl_cons, List.map_cons, List.sum_cons]
        rw [hm, hmean]
        ring

/-- Claim C8: in `perform.main`, `rewards[i]` is the sum of the per-step
rewards of episode `i`; after processing episode `i` the incrementally
updated running mean (`mean_reward += 1/(i+1) * (rewards[i] - mean_reward)`
from 0) equals the arithmetic mean of `rewards[0..i]`; and the restored
parameters are never updated during evaluation. -/
theorem eval_rewards_and_running_mean (params : List ℚ)
    (episodes : List (List ℚ)) (i : ℕ) (hi : i < episodes.length) :
    (eval_run params episodes).rewards = episodes.map List.sum ∧
    (eval_run params (episodes.take (i + 1))).mean_reward
      = ((episodes.take (i + 1)).map List.sum).sum / ((i : ℚ) + 1) ∧
    (eval_run params episodes).params = params := by
  have hall := eval_fold_invariant episodes
    { rewards := [], mean_reward := 0, params := params }
  have hpre := eval_fold_invariant (episodes.take (i + 1))
    { rewards := [], mean_reward := 0, params := params }
  refine ⟨by simpa [eval_run] using hall.1, ?_,
    by simpa [eval_run] using hall.2.1⟩
  have hlen2 : ((episodes.take (i + 1)).map List.sum).length = i + 1 := by
    rw [List.length_map, List.length_take]
    omega
  have hm := hpre.2.2
  rw [hpre.1] at hm
  simp only [List.nil_append, List.length_nil, Nat.cast_zero, zero_mul,
    zero_add, hlen2] at hm
  have hne : ((i : ℚ) + 1) ≠ 0 := by positivity
  simp only [eval_run] at hm ⊢
  rw [eq_div_iff hne]
  push_cast at hm
  linarith [hm]

/-- Witness for C8 on three episodes: the rewards are the episode sums, the
running mean after episode index 1 is the mean of the first two sums, and
the parameters survive evaluation unchanged. -/
theorem eval_rewards_and_running_mean_witness :
    (eval_run [3, 4] [[1, 2], [5], [7, 7]]).rewards = [3, 5, 14] ∧
    (eval_run [3, 4] ([[1, 2], [5], [7, 7]].take 2)).mean_reward = 4 ∧
    (eval_run [3, 4] [[1, 2], [5], [7, 7]]).params = [3, 4] := by
  have h := eval_rewards_and_running_mean [3, 4] [[1, 2], [5], [7, 7]] 1
    (by decide)
  refine ⟨?_, ?_, h.2.2⟩
  · rw [h.1]; norm_num
  · rw [h.2.1]; norm_num

end Spec2Proof
